import Mathlib

/-!
Verification of the `ttldtor/process` library (`src/process.cpp`), a
cross-platform facade reporting the calling process own CPU time
(kernel, user, total, in milliseconds) and memory footprint (working
set and private size, in bytes).

The shallow embedding below mirrors the four build-time strategies:

* Linux: `Parser::parseStatus` over lines of `/proc/self/status`, and
  `RUsageResult` converting `getrusage` timevals to milliseconds;
* Windows: `GetProcessTimes` FILETIME reconstruction and division by
  10000, plus `GetProcessMemoryInfo` counters;
* macOS: `proc_pid_rusage` tick counts scaled by the mach timebase;
* fallback: constant zero.

Strings are modelled as `List Char`; C++ `std::uint64_t` arithmetic is
modelled on `Nat` with an explicit `% 2 ^ 64` where the computation can
exceed 64 bits.  OS calls that can fail are modelled by an `Option`
input: `none` means the call failed and the zero-initialized local
struct was left untouched, exactly as the code (which ignores the
return status) would observe.
-/

/-- Embeds `key.isPrefixOf s` at the character level: the key occurs at
the very front of `s`. -/
def startsWithList : List Char → List Char → Bool
  | [], _ => true
  | _ :: _, [] => false
  | k :: ks, c :: cs => (k == c) && startsWithList ks cs

/-- Embeds `std::string::find`: the least index `p` such that `key`
occurs in `s` starting at `p`, or `none` (`npos`) if there is none. -/
def strFind (key : List Char) : List Char → Option Nat
  | [] => if startsWithList key [] then some 0 else none
  | c :: t =>
    if startsWithList key (c :: t) then some 0
    else (strFind key t).map (fun i => i + 1)

/-- Whether the character of `s` at index `i` is a decimal digit; out of
range indices yield `false` (the default character is a space). -/
def digitAt (s : List Char) (i : Nat) : Bool :=
  (s.getD i ' ').isDigit

/-- Index (relative) of the first decimal digit of a character list, or
`none` if there is no digit. -/
def findFirstDigitFrom : List Char → Option Nat
  | [] => none
  | c :: t =>
    if c.isDigit then some 0
    else (findFirstDigitFrom t).map (fun i => i + 1)

/-- Embeds `s.find_first_of("0123456789", pos)`: the least index
`q ≥ pos` holding a decimal digit, or `none` (`npos`). -/
def findFirstDigit (s : List Char) (pos : Nat) : Option Nat :=
  (findFirstDigitFrom (s.drop pos)).map (fun i => i + pos)

/-- Numeric value of a list of decimal digit characters, most
significant first. -/
def digitsToNat (ds : List Char) : Nat :=
  ds.foldl (fun a c => a * 10 + (c.toNat - 48)) 0

/-- Embeds the `std::stoll` call wrapped in `try/catch`: `stoll` parses
the leading digit run (the argument starts with a digit here) and
throws `std::out_of_range` beyond `LLONG_MAX`, in which case the code
substitutes 0; the subsequent cast to `std::uint64_t` is the identity
on the nonnegative result. -/
def stollClamp (v : Nat) : Nat :=
  if v < 2 ^ 63 then v else 0

namespace Parser

/-- Embeds `Parser::ParseResultType`. -/
inductive ParseResultType where
  | KEY_NOT_FOUND
  | VALUE_NOT_FOUND
  | OK
deriving DecidableEq, Repr

/-- Embeds `Parser::ParseStatusResult`. -/
structure ParseStatusResult where
  resultType : ParseResultType
  value : Nat
deriving DecidableEq, Repr

/-- Embeds `Parser::parseStatus` (src/process.cpp lines 142 to 160):
find the key in the line; on a hit, search for the first digit from
`foundKeyPos + 6`; if found, parse the digit run there with `stoll`,
else report `VALUE_NOT_FOUND`; on a miss report `KEY_NOT_FOUND`. -/
def parseStatus (s key : List Char) : ParseStatusResult :=
  match strFind key s with
  | some foundKeyPos =>
    match findFirstDigit s (foundKeyPos + 6) with
    | some foundValuePos =>
      ⟨ParseResultType.OK,
        stollClamp (digitsToNat ((s.drop foundValuePos).takeWhile Char.isDigit))⟩
    | none => ⟨ParseResultType.VALUE_NOT_FOUND, 0⟩
  | none => ⟨ParseResultType.KEY_NOT_FOUND, 0⟩

end Parser

/-- The key searched by `Process::getWorkingSetSize` on Linux. -/
def vmRSSKey : List Char := "VmRSS:".toList

/-- The key searched by `Process::getPrivateMemorySize` on Linux. -/
def vmSizeKey : List Char := "VmSize:".toList

/-- Embeds the `while (!std::getline(is, s).fail())` scan shared by the
two Linux memory queries: lines yielding `KEY_NOT_FOUND` are skipped;
the first other line returns its parsed value times 1024 (`uint64`
multiplication); an exhausted file returns 0. -/
def scanStatusLines (key : List Char) : List (List Char) → Nat
  | [] => 0
  | s :: rest =>
    let result := Parser.parseStatus s key
    if result.resultType = Parser.ParseResultType.KEY_NOT_FOUND then
      scanStatusLines key rest
    else
      result.value * 1024 % 2 ^ 64

/-- Embeds Linux `Process::getWorkingSetSize` (lines 201 to 221): the
input is the content of `/proc/self/status` as lines, or `none` when
the stream failed to open, in which case the query returns 0 without
scanning. -/
def getWorkingSetSize (statusFile : Option (List (List Char))) : Nat :=
  match statusFile with
  | none => 0
  | some lines => scanStatusLines vmRSSKey lines

/-- Embeds Linux `Process::getPrivateMemorySize` (lines 223 to 243). -/
def getPrivateMemorySize (statusFile : Option (List (List Char))) : Nat :=
  match statusFile with
  | none => 0
  | some lines => scanStatusLines vmSizeKey lines

/-- Embeds `struct timeval` as read back from `getrusage`; the OS
reports nonnegative values, modelled as `Nat`. -/
structure Timeval where
  tv_sec : Nat
  tv_usec : Nat
deriving DecidableEq, Repr

/-- Embeds the two time fields of `struct rusage` used by the code. -/
structure Rusage where
  ru_utime : Timeval
  ru_stime : Timeval
deriving DecidableEq, Repr

/-- The zero-initialized `rusage ru{}` local. -/
def zeroRusage : Rusage := ⟨⟨0, 0⟩, ⟨0, 0⟩⟩

/-- Milliseconds from a timeval, as computed in the `RUsageResult`
constructor: `sec * 1000ULL + usec / 1000ULL` in `uint64` arithmetic
(truncating division). -/
def timevalToMs (t : Timeval) : Nat :=
  (t.tv_sec * 1000 + t.tv_usec / 1000) % 2 ^ 64

/-- Embeds `RUsageResult` (src/process.cpp lines 163 to 175). -/
structure RUsageResult where
  sysTime : Nat
  userTime : Nat
  totalTime : Nat
deriving DecidableEq, Repr

/-- The `RUsageResult` constructor: `totalTime` is `sysTime + userTime`
(64-bit addition). -/
def mkRUsageResult (ru : Rusage) : RUsageResult :=
  { sysTime := timevalToMs ru.ru_stime
    userTime := timevalToMs ru.ru_utime
    totalTime := (timevalToMs ru.ru_stime + timevalToMs ru.ru_utime) % 2 ^ 64 }

/-- Embeds Linux `Process::getKernelProcessorTime`: `none` models a
failed `getrusage` call, leaving the zero-initialized struct. -/
def linuxGetKernelProcessorTime (r : Option Rusage) : Nat :=
  (mkRUsageResult (r.getD zeroRusage)).sysTime

/-- Embeds Linux `Process::getUserProcessorTime`. -/
def linuxGetUserProcessorTime (r : Option Rusage) : Nat :=
  (mkRUsageResult (r.getD zeroRusage)).userTime

/-- Embeds Linux `Process::getTotalProcessorTime`. -/
def linuxGetTotalProcessorTime (r : Option Rusage) : Nat :=
  (mkRUsageResult (r.getD zeroRusage)).totalTime

/-- Embeds the Windows `FILETIME` struct; both words are `DWORD`
values, hence below `2 ^ 32` for every value the OS can produce. -/
structure FILETIME where
  dwLowDateTime : Nat
  dwHighDateTime : Nat
deriving DecidableEq, Repr

/-- The 64-bit reconstruction used by the three Windows time queries:
`uint64(low) | (uint64(high) << 32)`. -/
def filetimeToU64 (ft : FILETIME) : Nat :=
  ft.dwLowDateTime ||| (ft.dwHighDateTime <<< 32)

/-- Embeds the four FILETIME out-parameters of `GetProcessTimes`. -/
structure ProcessTimes where
  creationTime : FILETIME
  exitTime : FILETIME
  kernelTime : FILETIME
  userTime : FILETIME
deriving DecidableEq, Repr

/-- The zero-initialized FILETIME locals. -/
def zeroProcessTimes : ProcessTimes := ⟨⟨0, 0⟩, ⟨0, 0⟩, ⟨0, 0⟩, ⟨0, 0⟩⟩

/-- Embeds Windows `Process::getKernelProcessorTime` (lines 57 to 71):
`none` models a failed `GetProcessTimes` call. -/
def winGetKernelProcessorTime (t : Option ProcessTimes) : Nat :=
  filetimeToU64 (t.getD zeroProcessTimes).kernelTime / 10000

/-- Embeds Windows `Process::getUserProcessorTime` (lines 73 to 86). -/
def winGetUserProcessorTime (t : Option ProcessTimes) : Nat :=
  filetimeToU64 (t.getD zeroProcessTimes).userTime / 10000

/-- Embeds Windows `Process::getTotalProcessorTime` (lines 88 to 104):
note that the code adds the two raw tick counts (`uint64` addition)
and divides the sum by 10000 once. -/
def winGetTotalProcessorTime (t : Option ProcessTimes) : Nat :=
  ((filetimeToU64 (t.getD zeroProcessTimes).kernelTime +
      filetimeToU64 (t.getD zeroProcessTimes).userTime) % 2 ^ 64) / 10000

/-- Embeds the two fields of `PROCESS_MEMORY_COUNTERS_EX` the code
reads. -/
structure MemoryCountersEx where
  WorkingSetSize : Nat
  PrivateUsage : Nat
deriving DecidableEq, Repr

/-- The zero-initialized counters local. -/
def zeroMemoryCountersEx : MemoryCountersEx := ⟨0, 0⟩

/-- Embeds Windows `Process::getWorkingSetSize`: `none` models a failed
`GetProcessMemoryInfo` call. -/
def winGetWorkingSetSize (m : Option MemoryCountersEx) : Nat :=
  (m.getD zeroMemoryCountersEx).WorkingSetSize

/-- Embeds Windows `Process::getPrivateMemorySize`. -/
def winGetPrivateMemorySize (m : Option MemoryCountersEx) : Nat :=
  (m.getD zeroMemoryCountersEx).PrivateUsage

/-- Embeds `mach_timebase_info_data_t`; mach guarantees a nonzero
denominator, carried as a hypothesis where it matters. -/
structure TimebaseInfo where
  numer : Nat
  denom : Nat
deriving DecidableEq, Repr

/-- Embeds the two time fields of `rusage_info_v2` the code reads. -/
structure RusageInfoV2 where
  ri_system_time : Nat
  ri_user_time : Nat
deriving DecidableEq, Repr

/-- The zero-initialized `rusage_info_v2` local. -/
def zeroRusageInfoV2 : RusageInfoV2 := ⟨0, 0⟩

/-- The macOS tick-to-millisecond conversion of `ProcPidRUsageResult`:
`((ticks * numer) / denom) / 1000000` in `uint64` arithmetic. -/
def macTickToMs (ticks : Nat) (tb : TimebaseInfo) : Nat :=
  ((ticks * tb.numer) % 2 ^ 64) / tb.denom / 1000000

/-- Embeds macOS `Process::getKernelProcessorTime`: `none` models a
failed `proc_pid_rusage` call. -/
def macGetKernelProcessorTime (r : Option RusageInfoV2) (tb : TimebaseInfo) : Nat :=
  macTickToMs (r.getD zeroRusageInfoV2).ri_system_time tb

/-- Embeds macOS `Process::getUserProcessorTime`. -/
def macGetUserProcessorTime (r : Option RusageInfoV2) (tb : TimebaseInfo) : Nat :=
  macTickToMs (r.getD zeroRusageInfoV2).ri_user_time tb

/-- Embeds macOS `Process::getTotalProcessorTime`: `sysTime + userTime`
computed in the `ProcPidRUsageResult` constructor. -/
def macGetTotalProcessorTime (r : Option RusageInfoV2) (tb : TimebaseInfo) : Nat :=
  (macGetKernelProcessorTime r tb + macGetUserProcessorTime r tb) % 2 ^ 64

/-- Embeds the two fields of `proc_taskallinfo` (through its `ptinfo`
member) that the macOS memory queries read. -/
structure ProcTaskAllInfo where
  pti_resident_size : Nat
  pti_virtual_size : Nat
deriving DecidableEq, Repr

/-- The zero-initialized `proc_taskallinfo info{}` local. -/
def zeroProcTaskAllInfo : ProcTaskAllInfo := ⟨0, 0⟩

/-- Embeds macOS `Process::getWorkingSetSize` (lines 311 to 316):
`none` models a failed `proc_pidinfo` call, whose ignored status leaves
the zero-initialized struct; the resident-size field is returned
directly in bytes. -/
def macGetWorkingSetSize (i : Option ProcTaskAllInfo) : Nat :=
  (i.getD zeroProcTaskAllInfo).pti_resident_size

/-- Embeds macOS `Process::getPrivateMemorySize` (lines 318 to 323):
the virtual-size field, returned directly in bytes. -/
def macGetPrivateMemorySize (i : Option ProcTaskAllInfo) : Nat :=
  (i.getD zeroProcTaskAllInfo).pti_virtual_size

/-- Embeds fallback `Process::getKernelProcessorTime` (line 329). -/
def fallbackGetKernelProcessorTime : Nat := 0

/-- Embeds fallback `Process::getUserProcessorTime`. -/
def fallbackGetUserProcessorTime : Nat := 0

/-- Embeds fallback `Process::getTotalProcessorTime`. -/
def fallbackGetTotalProcessorTime : Nat := 0

/-- Embeds fallback `Process::getWorkingSetSize`. -/
def fallbackGetWorkingSetSize : Nat := 0

/-- Embeds fallback `Process::getPrivateMemorySize`. -/
def fallbackGetPrivateMemorySize : Nat := 0

/-- Indexing with a default commutes with `List.drop`. -/
lemma getD_drop (l : List Char) (n m : Nat) (d : Char) :
    (l.drop n).getD m d = l.getD (n + m) d := by
  induction l generalizing n with
  | nil => simp
  | cons c t ih =>
    cases n with
    | zero => simp
    | succ k =>
      simp only [List.drop_succ_cons, Nat.succ_add, List.getD_cons_succ]
      exact ih k

/-- A successful front match pins down the first `k.length` characters
of `s`. -/
lemma startsWithList_getD (k : List Char) :
    ∀ s : List Char, startsWithList k s = true →
      ∀ i, i < k.length → s.getD i ' ' = k.getD i ' ' := by
  induction k with
  | nil => intro s _ i hi; simp at hi
  | cons a ks ih =>
    intro s h i hi
    cases s with
    | nil => simp [startsWithList] at h
    | cons c cs =>
      simp only [startsWithList, Bool.and_eq_true, beq_iff_eq] at h
      obtain ⟨rfl, h2⟩ := h
      cases i with
      | zero => simp
      | succ j =>
        simpa using ih cs h2 j (by simpa using hi)

/-- Characterizes a hit of `strFind`: the key matches at the reported
position and at no earlier position. -/
lemma strFind_some (key : List Char) :
    ∀ (s : List Char) (p : Nat), strFind key s = some p →
      startsWithList key (s.drop p) = true ∧
      ∀ j, j < p → startsWithList key (s.drop j) = false := by
  intro s
  induction s with
  | nil =>
    intro p h
    simp only [strFind] at h
    split at h
    · cases h
      exact ⟨by simpa using ‹startsWithList key [] = true›, by intro j hj; omega⟩
    · cases h
  | cons c t ih =>
    intro p h
    simp only [strFind] at h
    split at h
    case isTrue hstart =>
      cases h
      exact ⟨by simpa using hstart, by intro j hj; omega⟩
    case isFalse hstart =>
      cases hfind : strFind key t with
      | none => rw [hfind] at h; cases h
      | some q =>
        rw [hfind] at h
        simp only [Option.map_some'] at h
        cases h
        obtain ⟨h1, h2⟩ := ih q hfind
        refine ⟨by simpa [List.drop] using h1, ?_⟩
        intro j hj
        cases j with
        | zero => simpa using hstart
        | succ j' => simpa [List.drop] using h2 j' (by omega)

/-- Characterizes a miss of `strFind`: the key matches nowhere. -/
lemma strFind_none (key : List Char) :
    ∀ s : List Char, strFind key s = none →
      ∀ j, startsWithList key (s.drop j) = false := by
  intro s
  induction s with
  | nil =>
    intro h j
    simp only [strFind] at h
    split at h
    · cases h
    · simpa using ‹¬ startsWithList key [] = true›
  | cons c t ih =>
    intro h j
    simp only [strFind] at h
    split at h
    · cases h
    · cases hfind : strFind key t with
      | some q => rw [hfind] at h; cases h
      | none =>
        cases j with
        | zero => simpa using ‹¬ startsWithList key (c :: t) = true›
        | succ j' => simpa [List.drop] using ih hfind j'

/-- Characterizes a miss of the digit search: no character of the list
is a digit. -/
lemma findFirstDigitFrom_none :
    ∀ l : List Char, findFirstDigitFrom l = none →
      ∀ j, (l.getD j ' ').isDigit = false := by
  intro l
  induction l with
  | nil => intro _ j; simp only [List.getD_nil]; decide
  | cons c t ih =>
    intro h j
    simp only [findFirstDigitFrom] at h
    split at h
    · cases h
    · cases hfd : findFirstDigitFrom t with
      | some q => rw [hfd] at h; cases h
      | none =>
        cases j with
        | zero => simpa using ‹¬ c.isDigit = true›
        | succ j' => simpa using ih hfd j'

/-- Characterizes a hit of the digit search: the reported index holds a
digit and every earlier index does not. -/
lemma findFirstDigitFrom_some :
    ∀ (l : List Char) (i : Nat), findFirstDigitFrom l = some i →
      (l.getD i ' ').isDigit = true ∧
      ∀ j, j < i → (l.getD j ' ').isDigit = false := by
  intro l
  induction l with
  | nil => intro i h; cases h
  | cons c t ih =>
    intro i h
    simp only [findFirstDigitFrom] at h
    split at h
    · cases h
      exact ⟨by simpa using ‹c.isDigit = true›, by intro j hj; omega⟩
    · cases hfd : findFirstDigitFrom t with
      | none => rw [hfd] at h; cases h
      | some q =>
        rw [hfd] at h
        simp only [Option.map_some'] at h
        cases h
        obtain ⟨h1, h2⟩ := ih q hfd
        refine ⟨by simpa using h1, ?_⟩
        intro j hj
        cases j with
        | zero => simpa using ‹¬ c.isDigit = true›
        | succ j' => simpa using h2 j' (by omega)

/-- On a miss, no index at or after the start position holds a digit. -/
lemma findFirstDigit_none (s : List Char) (pos : Nat)
    (h : findFirstDigit s pos = none) :
    ∀ j, pos ≤ j → digitAt s j = false := by
  intro j hj
  cases hf : findFirstDigitFrom (s.drop pos) with
  | some q => simp [findFirstDigit, hf] at h
  | none =>
    have hall := findFirstDigitFrom_none _ hf (j - pos)
    rw [getD_drop] at hall
    have e : pos + (j - pos) = j := by omega
    rw [e] at hall
    simpa [digitAt] using hall

/-- On a hit, the reported index is the least digit position at or
after the start position. -/
lemma findFirstDigit_some (s : List Char) (pos q : Nat)
    (h : findFirstDigit s pos = some q) :
    pos ≤ q ∧ digitAt s q = true ∧
      ∀ j, pos ≤ j → j < q → digitAt s j = false := by
  cases hf : findFirstDigitFrom (s.drop pos) with
  | none => simp [findFirstDigit, hf] at h
  | some i =>
    simp only [findFirstDigit, hf, Option.map_some'] at h
    cases h
    obtain ⟨h1, h2⟩ := findFirstDigitFrom_some _ _ hf
    rw [getD_drop] at h1
    refine ⟨by omega, by simpa [digitAt, Nat.add_comm] using h1, ?_⟩
    intro j hj1 hj2
    have hlt := h2 (j - pos) (by omega)
    rw [getD_drop] at hlt
    have e : pos + (j - pos) = j := by omega
    rw [e] at hlt
    simpa [digitAt] using hlt

/-- Skipping a non-digit position does not change the digit search
result. -/
lemma findFirstDigit_succ (s : List Char) (pos : Nat)
    (h : digitAt s pos = false) :
    findFirstDigit s pos = findFirstDigit s (pos + 1) := by
  have hdrop : (s.drop pos).drop 1 = s.drop (pos + 1) := by
    rw [List.drop_drop]
  cases hd : s.drop pos with
  | nil =>
    have ht : s.drop (pos + 1) = [] := by rw [← hdrop, hd]; rfl
    simp [findFirstDigit, hd, ht, findFirstDigitFrom]
  | cons c t =>
    have hc : c.isDigit = false := by
      have hg := getD_drop s pos 0 ' '
      rw [hd, Nat.add_zero] at hg
      simp only [List.getD_cons_zero] at hg
      rw [digitAt, ← hg] at h
      exact h
    have ht : s.drop (pos + 1) = t := by rw [← hdrop, hd]; rfl
    simp only [findFirstDigit, hd, ht, findFirstDigitFrom, hc,
      Bool.false_eq_true, if_false]
    cases findFirstDigitFrom t with
    | none => rfl
    | some i =>
      simp only [Option.map_some', Option.some.injEq]
      omega

/-- Every character of the digit run taken by `takeWhile Char.isDigit`
is a digit. -/
lemma takeWhileDigit_all :
    ∀ l : List Char, ∀ j, j < (l.takeWhile Char.isDigit).length →
      (l.getD j ' ').isDigit = true := by
  intro l
  induction l with
  | nil => intro j hj; simp at hj
  | cons c t ih =>
    intro j hj
    cases hc : c.isDigit with
    | false => rw [List.takeWhile_cons, hc] at hj; simp at hj
    | true =>
      rw [List.takeWhile_cons, hc] at hj
      simp only [if_true, List.length_cons] at hj
      cases j with
      | zero => simpa using hc
      | succ j' => simpa using ih j' (by omega)

/-- The character right after the digit run taken by
`takeWhile Char.isDigit` is not a digit (out of range positions read as
a space): the run is maximal. -/
lemma takeWhileDigit_max :
    ∀ l : List Char,
      (l.getD (l.takeWhile Char.isDigit).length ' ').isDigit = false := by
  intro l
  induction l with
  | nil => simp only [List.takeWhile_nil, List.length_nil, List.getD_nil]; decide
  | cons c t ih =>
    cases hc : c.isDigit with
    | false =>
      rw [List.takeWhile_cons, hc]
      simpa using hc
    | true =>
      rw [List.takeWhile_cons, hc]
      simpa using ih

/-- The 64-bit FILETIME reconstruction is positional: with a low word
below `2 ^ 32`, the bitwise or of the low word and the shifted high
word is exactly `low + high * 2 ^ 32`. -/
lemma filetimeToU64_eq (ft : FILETIME) (h : ft.dwLowDateTime < 2 ^ 32) :
    filetimeToU64 ft = ft.dwLowDateTime + ft.dwHighDateTime * 2 ^ 32 := by
  obtain ⟨low, high⟩ := ft
  simp only [filetimeToU64] at *
  rw [Nat.shiftLeft_eq]
  calc low ||| high * 2 ^ 32
      = (2 ^ 32 * high) ||| low := by rw [Nat.lor_comm, Nat.mul_comm]
    _ = 2 ^ 32 * high + low := (Nat.mul_add_lt_is_or h high).symm
    _ = low + high * 2 ^ 32 := by ring

/-- The parser reports `KEY_NOT_FOUND` exactly when `find` misses. -/
lemma parseStatus_keyNotFound_iff (s key : List Char) :
    (Parser.parseStatus s key).resultType = Parser.ParseResultType.KEY_NOT_FOUND ↔
      strFind key s = none := by
  unfold Parser.parseStatus
  cases hf : strFind key s with
  | none => simp
  | some p =>
    cases hd : findFirstDigit s (p + 6) with
    | none => simp [hd]
    | some q => simp [hd]

/-- A line missing the key is skipped by the scan loop. -/
lemma scanStatusLines_cons_miss (key line : List Char)
    (rest : List (List Char)) (h : strFind key line = none) :
    scanStatusLines key (line :: rest) = scanStatusLines key rest := by
  simp only [scanStatusLines]
  rw [if_pos ((parseStatus_keyNotFound_iff line key).mpr h)]

/-- A line containing the key ends the scan loop with the parsed value
times 1024. -/
lemma scanStatusLines_cons_hit (key line : List Char)
    (rest : List (List Char)) (p : Nat) (h : strFind key line = some p) :
    scanStatusLines key (line :: rest) =
      (Parser.parseStatus line key).value * 1024 % 2 ^ 64 := by
  simp only [scanStatusLines]
  rw [if_neg]
  intro hK
  rw [parseStatus_keyNotFound_iff] at hK
  rw [h] at hK
  cases hK

/-- Keyless lines at the front of the file do not affect the scan. -/
lemma scanStatusLines_append_miss (key : List Char)
    (before rest : List (List Char))
    (h : ∀ l ∈ before, strFind key l = none) :
    scanStatusLines key (before ++ rest) = scanStatusLines key rest := by
  induction before with
  | nil => rfl
  | cons b bs ih =>
    rw [List.cons_append, scanStatusLines_cons_miss key b _ (h b (by simp))]
    exact ih (fun l hl => h l (by simp [hl]))

/-- A file whose lines all miss the key scans to 0. -/
lemma scanStatusLines_all_miss (key : List Char) (lines : List (List Char))
    (h : ∀ l ∈ lines, strFind key l = none) :
    scanStatusLines key lines = 0 := by
  have := scanStatusLines_append_miss key lines [] h
  simpa using this

/-- Claim C5: the Linux parser, applied to the line
"VmRSS:      1234 kB" with key "VmRSS:", returns result type OK with
value 1234, and the memory query multiplies the parsed kibibyte value
by 1024, producing 1263616 bytes for that line. -/
theorem c5_fixture_line :
    Parser.parseStatus ("VmRSS:      1234 kB".toList) vmRSSKey =
      ⟨Parser.ParseResultType.OK, 1234⟩ ∧
    getWorkingSetSize (some ["VmRSS:      1234 kB".toList]) = 1263616 := by
  decide

/-- Claim C3: none of the five public queries, on any platform
strategy, raises an observable error: every query is a total function
here, and on failure inputs (failed syscall modelled by `none`, an
unopenable pseudo-file modelled by `none`, malformed status data) each
degrades to 0: the fallback strategy returns 0 unconditionally for all
five queries; the Linux, Windows and macOS strategies each return 0
from all five queries when the underlying call (`getrusage`, the
status-file open, `GetProcessTimes`, `GetProcessMemoryInfo`,
`proc_pid_rusage`, `proc_pidinfo`) fails; and the Linux memory queries
return 0 on a key with no digits, on an overflowing digit run, and on
junk data. -/
theorem c3_fail_soft :
    (fallbackGetKernelProcessorTime = 0 ∧ fallbackGetUserProcessorTime = 0 ∧
      fallbackGetTotalProcessorTime = 0 ∧ fallbackGetWorkingSetSize = 0 ∧
      fallbackGetPrivateMemorySize = 0) ∧
    (linuxGetKernelProcessorTime none = 0 ∧ linuxGetUserProcessorTime none = 0 ∧
      linuxGetTotalProcessorTime none = 0 ∧ getWorkingSetSize none = 0 ∧
      getPrivateMemorySize none = 0) ∧
    (winGetKernelProcessorTime none = 0 ∧ winGetUserProcessorTime none = 0 ∧
      winGetTotalProcessorTime none = 0 ∧ winGetWorkingSetSize none = 0 ∧
      winGetPrivateMemorySize none = 0) ∧
    (getWorkingSetSize (some ["VmRSS:".toList]) = 0 ∧
      getWorkingSetSize (some ["VmRSS: 99999999999999999999 kB".toList]) = 0 ∧
      getPrivateMemorySize (some ["garbage line".toList, "VmSize: junk".toList]) = 0) ∧
    (∀ tb : TimebaseInfo, macGetKernelProcessorTime none tb = 0 ∧
      macGetUserProcessorTime none tb = 0 ∧ macGetTotalProcessorTime none tb = 0) ∧
    (macGetWorkingSetSize none = 0 ∧ macGetPrivateMemorySize none = 0) := by
  refine ⟨by decide, by decide, by decide, by decide, ?_, by decide⟩
  intro tb
  refine ⟨?_, ?_, ?_⟩ <;>
    simp [macGetKernelProcessorTime, macGetUserProcessorTime,
      macGetTotalProcessorTime, macTickToMs, zeroRusageInfoV2]

/-- Claim C4: on Linux, for every rusage value read from the OS (for
which the millisecond counts fit in 64 bits), `getKernelProcessorTime`
returns `ru_stime.tv_sec * 1000 + ru_stime.tv_usec / 1000` and
`getUserProcessorTime` returns
`ru_utime.tv_sec * 1000 + ru_utime.tv_usec / 1000`, with truncating
integer division of the microseconds, and the total is the sum of the
two. -/
theorem c4_linux_time_conversion (ru : Rusage)
    (hs : ru.ru_stime.tv_sec * 1000 + ru.ru_stime.tv_usec / 1000 < 2 ^ 64)
    (hu : ru.ru_utime.tv_sec * 1000 + ru.ru_utime.tv_usec / 1000 < 2 ^ 64)
    (ht : ru.ru_stime.tv_sec * 1000 + ru.ru_stime.tv_usec / 1000 +
        (ru.ru_utime.tv_sec * 1000 + ru.ru_utime.tv_usec / 1000) < 2 ^ 64) :
    linuxGetKernelProcessorTime (some ru) =
      ru.ru_stime.tv_sec * 1000 + ru.ru_stime.tv_usec / 1000 ∧
    linuxGetUserProcessorTime (some ru) =
      ru.ru_utime.tv_sec * 1000 + ru.ru_utime.tv_usec / 1000 ∧
    linuxGetTotalProcessorTime (some ru) =
      linuxGetKernelProcessorTime (some ru) +
        linuxGetUserProcessorTime (some ru) := by
  simp only [linuxGetKernelProcessorTime, linuxGetUserProcessorTime,
    linuxGetTotalProcessorTime, mkRUsageResult, timevalToMs, Option.getD_some]
  omega

/-- Witness for C4 at a concrete rusage: 2999 microseconds contribute
2 milliseconds (truncation, not rounding). -/
theorem c4_witness :
    linuxGetKernelProcessorTime (some ⟨⟨7, 1999⟩, ⟨3, 2999⟩⟩) = 3002 ∧
    linuxGetUserProcessorTime (some ⟨⟨7, 1999⟩, ⟨3, 2999⟩⟩) = 7001 ∧
    linuxGetTotalProcessorTime (some ⟨⟨7, 1999⟩, ⟨3, 2999⟩⟩) =
      linuxGetKernelProcessorTime (some ⟨⟨7, 1999⟩, ⟨3, 2999⟩⟩) +
        linuxGetUserProcessorTime (some ⟨⟨7, 1999⟩, ⟨3, 2999⟩⟩) := by
  have h := c4_linux_time_conversion ⟨⟨7, 1999⟩, ⟨3, 2999⟩⟩
    (by decide) (by decide) (by decide)
  exact ⟨h.1.trans (by decide), h.2.1.trans (by decide), h.2.2⟩

/-- Claim C8: on Windows, for every FILETIME pair returned by the
timing query (words are DWORD values, below two to the 32), each of the
kernel and user durations is reconstructed as low word plus high word
shifted into bits 32 to 63, in 100 nanosecond ticks, and converted to
milliseconds by integer division by 10000. -/
theorem c8_filetime_reconstruction (t : ProcessTimes)
    (hk : t.kernelTime.dwLowDateTime < 2 ^ 32)
    (hu : t.userTime.dwLowDateTime < 2 ^ 32) :
    winGetKernelProcessorTime (some t) =
      (t.kernelTime.dwLowDateTime + t.kernelTime.dwHighDateTime * 2 ^ 32) / 10000 ∧
    winGetUserProcessorTime (some t) =
      (t.userTime.dwLowDateTime + t.userTime.dwHighDateTime * 2 ^ 32) / 10000 := by
  unfold winGetKernelProcessorTime winGetUserProcessorTime
  simp only [Option.getD_some]
  rw [filetimeToU64_eq _ hk, filetimeToU64_eq _ hu]
  exact ⟨rfl, rfl⟩

/-- Witness for C8 at a concrete FILETIME pair: kernel ticks
2 to the 32 plus 705032704 equal 5000000000 ticks, hence 500000 ms. -/
theorem c8_witness :
    winGetKernelProcessorTime
      (some ⟨⟨0, 0⟩, ⟨0, 0⟩, ⟨705032704, 1⟩, ⟨20000, 0⟩⟩) = 500000 ∧
    winGetUserProcessorTime
      (some ⟨⟨0, 0⟩, ⟨0, 0⟩, ⟨705032704, 1⟩, ⟨20000, 0⟩⟩) = 2 := by
  have h := c8_filetime_reconstruction
    ⟨⟨0, 0⟩, ⟨0, 0⟩, ⟨705032704, 1⟩, ⟨20000, 0⟩⟩ (by decide) (by decide)
  exact ⟨h.1.trans (by decide), h.2.trans (by decide)⟩

/-- Claim C2: for every line in which the key is found, the Linux
parser locates the first digit character at or after the fixed offset
of 6 characters past the key position, for both keys "VmRSS:" and
"VmSize:" this is the position immediately after the key token and its
separator (for "VmSize:" the character at offset 6 is the colon, never
a digit, so the search result is unchanged), and it parses the maximal
digit run starting there as an unsigned integer (through `stoll`,
substituting 0 past the signed 64-bit range). -/
theorem c2_digit_search_offset (s key : List Char) (p : Nat)
    (hkey : key = vmRSSKey ∨ key = vmSizeKey)
    (hfind : strFind key s = some p) :
    findFirstDigit s (p + 6) = findFirstDigit s (p + key.length) ∧
    ∀ q, findFirstDigit s (p + 6) = some q →
      p + 6 ≤ q ∧ digitAt s q = true ∧
      (∀ j, p + 6 ≤ j → j < q → digitAt s j = false) ∧
      (∀ j, j < ((s.drop q).takeWhile Char.isDigit).length →
        digitAt s (q + j) = true) ∧
      digitAt s (q + ((s.drop q).takeWhile Char.isDigit).length) = false ∧
      Parser.parseStatus s key =
        ⟨Parser.ParseResultType.OK,
          stollClamp (digitsToNat ((s.drop q).takeWhile Char.isDigit))⟩ := by
  constructor
  · rcases hkey with rfl | rfl
    · have h6 : vmRSSKey.length = 6 := by decide
      rw [h6]
    · have hstart := (strFind_some vmSizeKey s p hfind).1
      have hcolon : s.getD (p + 6) ' ' = ':' := by
        have hg := startsWithList_getD vmSizeKey (s.drop p) hstart 6 (by decide)
        rw [getD_drop] at hg
        rw [hg]
        decide
      have hnd : digitAt s (p + 6) = false := by
        simp only [digitAt]
        rw [hcolon]
        decide
      have h7 : vmSizeKey.length = 7 := by decide
      have e : p + 7 = p + 6 + 1 := by omega
      rw [h7, e]
      exact findFirstDigit_succ s (p + 6) hnd
  · intro q hq
    obtain ⟨hq1, hq2, hq3⟩ := findFirstDigit_some s (p + 6) q hq
    refine ⟨hq1, hq2, hq3, ?_, ?_, ?_⟩
    · intro j hj
      have hall := takeWhileDigit_all (s.drop q) j hj
      rw [getD_drop] at hall
      simpa [digitAt] using hall
    · have hmax := takeWhileDigit_max (s.drop q)
      rw [getD_drop] at hmax
      simpa [digitAt] using hmax
    · simp [Parser.parseStatus, hfind, hq]

/-- Witness for C2 on the key "VmSize:" found at position 0: the
search from offset 6 agrees with the search from right after the key,
and the line parses to 77. -/
theorem c2_witness :
    Parser.parseStatus ("VmSize:     77 kB".toList) vmSizeKey =
      ⟨Parser.ParseResultType.OK, 77⟩ ∧
    findFirstDigit ("VmSize:     77 kB".toList) (0 + 6) =
      findFirstDigit ("VmSize:     77 kB".toList) (0 + vmSizeKey.length) := by
  have h := c2_digit_search_offset ("VmSize:     77 kB".toList) vmSizeKey 0
    (Or.inr rfl) (by decide)
  exact ⟨((h.2 12 (by decide)).2.2.2.2.2).trans (by decide), h.1⟩

/-- Claim C6: for every line that contains the key but has no digit
character at or after the expected offset, the Linux parser returns
VALUE_NOT_FOUND with value 0, and the memory query then stops
scanning, returning 0 whatever the later lines of the file hold. -/
theorem c6_value_not_found_stops (s key : List Char) (p : Nat)
    (hfind : strFind key s = some p)
    (hnd : findFirstDigit s (p + 6) = none) :
    (∀ j, p + 6 ≤ j → digitAt s j = false) ∧
    Parser.parseStatus s key = ⟨Parser.ParseResultType.VALUE_NOT_FOUND, 0⟩ ∧
    ∀ rest, scanStatusLines key (s :: rest) = 0 := by
  have hparse : Parser.parseStatus s key =
      ⟨Parser.ParseResultType.VALUE_NOT_FOUND, 0⟩ := by
    simp [Parser.parseStatus, hfind, hnd]
  refine ⟨findFirstDigit_none s (p + 6) hnd, hparse, ?_⟩
  intro rest
  rw [scanStatusLines_cons_hit key s rest p hfind, hparse]
  decide

/-- Witness for C6: a line holding "VmRSS:" and trailing spaces yields
VALUE_NOT_FOUND, and the scan ignores a perfectly well-formed later
line. -/
theorem c6_witness :
    Parser.parseStatus ("VmRSS:    ".toList) vmRSSKey =
      ⟨Parser.ParseResultType.VALUE_NOT_FOUND, 0⟩ ∧
    scanStatusLines vmRSSKey
      ["VmRSS:    ".toList, "VmRSS:  777 kB".toList] = 0 := by
  have h := c6_value_not_found_stops ("VmRSS:    ".toList) vmRSSKey 0
    (by decide) (by decide)
  exact ⟨h.2.1, h.2.2 ["VmRSS:  777 kB".toList]⟩

/-- Claim C7: on Linux, if the status pseudo-file cannot be opened,
both memory queries return 0 immediately; and when the searched key is
absent from every line, each line parses to KEY_NOT_FOUND, scanning
continues, and the query returns 0 once the file is exhausted. -/
theorem c7_key_absent_returns_zero (lines : List (List Char))
    (hR : ∀ l ∈ lines, strFind vmRSSKey l = none)
    (hS : ∀ l ∈ lines, strFind vmSizeKey l = none) :
    getWorkingSetSize none = 0 ∧ getPrivateMemorySize none = 0 ∧
    (∀ l ∈ lines, (Parser.parseStatus l vmRSSKey).resultType =
      Parser.ParseResultType.KEY_NOT_FOUND) ∧
    (∀ l ∈ lines, (Parser.parseStatus l vmSizeKey).resultType =
      Parser.ParseResultType.KEY_NOT_FOUND) ∧
    getWorkingSetSize (some lines) = 0 ∧
    getPrivateMemorySize (some lines) = 0 := by
  refine ⟨rfl, rfl, ?_, ?_, ?_, ?_⟩
  · intro l hl
    exact (parseStatus_keyNotFound_iff l vmRSSKey).mpr (hR l hl)
  · intro l hl
    exact (parseStatus_keyNotFound_iff l vmSizeKey).mpr (hS l hl)
  · exact scanStatusLines_all_miss vmRSSKey lines hR
  · exact scanStatusLines_all_miss vmSizeKey lines hS

/-- Witness for C7 on a two-line fixture missing both keys. -/
theorem c7_witness :
    getWorkingSetSize (some ["Name: cat".toList, "Pid: 77".toList]) = 0 ∧
    getPrivateMemorySize (some ["Name: cat".toList, "Pid: 77".toList]) = 0 := by
  have h := c7_key_absent_returns_zero ["Name: cat".toList, "Pid: 77".toList]
    (by decide) (by decide)
  exact ⟨h.2.2.2.2.1, h.2.2.2.2.2⟩

/-- The scan over keyless lines followed by a line containing the key
at any position returns the parsed value of that line times 1024. -/
lemma scan_first_hit (key : List Char) (before : List (List Char))
    (line : List Char) (rest : List (List Char)) (i : Nat)
    (hb : ∀ l ∈ before, strFind key l = none)
    (hl : startsWithList key (line.drop i) = true) :
    scanStatusLines key (before ++ line :: rest) =
      (Parser.parseStatus line key).value * 1024 % 2 ^ 64 := by
  rw [scanStatusLines_append_miss key before _ hb]
  cases hf : strFind key line with
  | none =>
    have habs := strFind_none key line hf i
    rw [hl] at habs
    cases habs
  | some p => exact scanStatusLines_cons_hit key line rest p hf

/-- Claim C10: on Linux, `getWorkingSetSize` and `getPrivateMemorySize`
return the value parsed from the first line in which the key occurs as
a substring at any position within the line; once such a line is
encountered, no later line of the status file affects the result. -/
theorem c10_first_matching_line (before : List (List Char))
    (line : List Char) (rest1 rest2 : List (List Char)) (i : Nat) :
    ((∀ l ∈ before, strFind vmRSSKey l = none) →
      startsWithList vmRSSKey (line.drop i) = true →
      getWorkingSetSize (some (before ++ line :: rest1)) =
        (Parser.parseStatus line vmRSSKey).value * 1024 % 2 ^ 64 ∧
      getWorkingSetSize (some (before ++ line :: rest1)) =
        getWorkingSetSize (some (before ++ line :: rest2))) ∧
    ((∀ l ∈ before, strFind vmSizeKey l = none) →
      startsWithList vmSizeKey (line.drop i) = true →
      getPrivateMemorySize (some (before ++ line :: rest1)) =
        (Parser.parseStatus line vmSizeKey).value * 1024 % 2 ^ 64 ∧
      getPrivateMemorySize (some (before ++ line :: rest1)) =
        getPrivateMemorySize (some (before ++ line :: rest2))) := by
  constructor
  · intro hb hl
    have h1 := scan_first_hit vmRSSKey before line rest1 i hb hl
    have h2 := scan_first_hit vmRSSKey before line rest2 i hb hl
    exact ⟨h1, h1.trans h2.symm⟩
  · intro hb hl
    have h1 := scan_first_hit vmSizeKey before line rest1 i hb hl
    have h2 := scan_first_hit vmSizeKey before line rest2 i hb hl
    exact ⟨h1, h1.trans h2.symm⟩

/-- Witness for C10: the key sits mid-line (position 2 and position 1
respectively), a later well-formed line is ignored, and truncating the
tail does not change the result. -/
theorem c10_witness :
    getWorkingSetSize (some (["Name: z".toList] ++
      "xxVmRSS:  8 kB".toList :: ["VmRSS: 100 kB".toList])) = 8192 ∧
    getWorkingSetSize (some (["Name: z".toList] ++
      "xxVmRSS:  8 kB".toList :: ["VmRSS: 100 kB".toList])) =
      getWorkingSetSize (some (["Name: z".toList] ++
        "xxVmRSS:  8 kB".toList :: [])) ∧
    getPrivateMemorySize (some (["Name: z".toList] ++
      "xVmSize: 3 kB".toList :: ["whatever".toList])) = 3072 := by
  have hA := (c10_first_matching_line ["Name: z".toList]
    ("xxVmRSS:  8 kB".toList) ["VmRSS: 100 kB".toList] [] 2).1
    (by decide) (by decide)
  have hB := (c10_first_matching_line ["Name: z".toList]
    ("xVmSize: 3 kB".toList) ["whatever".toList] [] 1).2
    (by decide) (by decide)
  exact ⟨hA.1.trans (by decide), hA.2, hB.1.trans (by decide)⟩

/-- Counterexample to C1 as stated: on the Windows strategy the total
is NOT kernel milliseconds plus user milliseconds computed
independently; with kernel and user FILETIME values of 5000 ticks
each, the total is (5000 + 5000) / 10000 = 1 while each addend alone
is 0. -/
theorem c1_counterexample :
    ¬ (winGetTotalProcessorTime
        (some ⟨⟨0, 0⟩, ⟨0, 0⟩, ⟨5000, 0⟩, ⟨5000, 0⟩⟩) =
      winGetKernelProcessorTime
        (some ⟨⟨0, 0⟩, ⟨0, 0⟩, ⟨5000, 0⟩, ⟨5000, 0⟩⟩) +
      winGetUserProcessorTime
        (some ⟨⟨0, 0⟩, ⟨0, 0⟩, ⟨5000, 0⟩, ⟨5000, 0⟩⟩)) := by
  decide

/-- Claim C1 amended: for the Linux, macOS and fallback strategies the
total time from one snapshot equals kernel time plus user time (absent
64-bit wraparound); the Windows strategy instead converts the combined
raw tick value, dividing the sum of the raw kernel and user tick
counts by 10000 once, so its total equals kernel ms plus user ms or
exceeds that sum by exactly 1 ms (when the raw sum does not wrap). -/
theorem c1_total_equals_sum_amended :
    (∀ ru : Rusage,
      timevalToMs ru.ru_stime + timevalToMs ru.ru_utime < 2 ^ 64 →
      linuxGetTotalProcessorTime (some ru) =
        linuxGetKernelProcessorTime (some ru) +
          linuxGetUserProcessorTime (some ru)) ∧
    (∀ r : RusageInfoV2, ∀ tb : TimebaseInfo,
      macGetKernelProcessorTime (some r) tb +
          macGetUserProcessorTime (some r) tb < 2 ^ 64 →
      macGetTotalProcessorTime (some r) tb =
        macGetKernelProcessorTime (some r) tb +
          macGetUserProcessorTime (some r) tb) ∧
    (fallbackGetTotalProcessorTime =
      fallbackGetKernelProcessorTime + fallbackGetUserProcessorTime) ∧
    (∀ t : ProcessTimes,
      filetimeToU64 t.kernelTime + filetimeToU64 t.userTime < 2 ^ 64 →
      winGetKernelProcessorTime (some t) + winGetUserProcessorTime (some t) ≤
        winGetTotalProcessorTime (some t) ∧
      winGetTotalProcessorTime (some t) ≤
        winGetKernelProcessorTime (some t) +
          winGetUserProcessorTime (some t) + 1) := by
  refine ⟨?_, ?_, rfl, ?_⟩
  · intro ru h
    simp only [linuxGetTotalProcessorTime, linuxGetKernelProcessorTime,
      linuxGetUserProcessorTime, mkRUsageResult, Option.getD_some]
    omega
  · intro r tb h
    simp only [macGetTotalProcessorTime] at *
    omega
  · intro t h
    simp only [winGetKernelProcessorTime, winGetUserProcessorTime,
      winGetTotalProcessorTime, Option.getD_some] at *
    omega

/-- Witness for the amended C1: a Linux snapshot with total 3000 ms, a
macOS snapshot with total 5 ms, and the Windows snapshot of the
counterexample where the total exceeds the sum by exactly 1. -/
theorem c1_witness :
    linuxGetTotalProcessorTime (some ⟨⟨1, 0⟩, ⟨2, 0⟩⟩) =
      linuxGetKernelProcessorTime (some ⟨⟨1, 0⟩, ⟨2, 0⟩⟩) +
        linuxGetUserProcessorTime (some ⟨⟨1, 0⟩, ⟨2, 0⟩⟩) ∧
    macGetTotalProcessorTime (some ⟨2000000, 3000000⟩) ⟨1, 1⟩ =
      macGetKernelProcessorTime (some ⟨2000000, 3000000⟩) ⟨1, 1⟩ +
        macGetUserProcessorTime (some ⟨2000000, 3000000⟩) ⟨1, 1⟩ ∧
    winGetTotalProcessorTime
        (some ⟨⟨0, 0⟩, ⟨0, 0⟩, ⟨5000, 0⟩, ⟨5000, 0⟩⟩) ≤
      winGetKernelProcessorTime
          (some ⟨⟨0, 0⟩, ⟨0, 0⟩, ⟨5000, 0⟩, ⟨5000, 0⟩⟩) +
        winGetUserProcessorTime
          (some ⟨⟨0, 0⟩, ⟨0, 0⟩, ⟨5000, 0⟩, ⟨5000, 0⟩⟩) + 1 := by
  exact ⟨c1_total_equals_sum_amended.1 _ (by decide),
    c1_total_equals_sum_amended.2.1 _ _ (by decide),
    (c1_total_equals_sum_amended.2.2.2 _ (by decide)).2⟩

/-- Claim C9: the kernel, user and total processor-time values are
monotonically non-decreasing: for every pair of raw OS time snapshots
whose second is componentwise at least the first (and within the
64-bit range), the milliseconds returned by the kernel, user and total
queries from the second snapshot are at least those from the first, on
each of the Linux, Windows and macOS strategies. -/
theorem c9_monotone_in_snapshot :
    (∀ ru1 ru2 : Rusage,
      ru1.ru_stime.tv_sec ≤ ru2.ru_stime.tv_sec →
      ru1.ru_stime.tv_usec ≤ ru2.ru_stime.tv_usec →
      ru1.ru_utime.tv_sec ≤ ru2.ru_utime.tv_sec →
      ru1.ru_utime.tv_usec ≤ ru2.ru_utime.tv_usec →
      ru2.ru_stime.tv_sec * 1000 + ru2.ru_stime.tv_usec / 1000 +
        (ru2.ru_utime.tv_sec * 1000 + ru2.ru_utime.tv_usec / 1000) < 2 ^ 64 →
      linuxGetKernelProcessorTime (some ru1) ≤
          linuxGetKernelProcessorTime (some ru2) ∧
        linuxGetUserProcessorTime (some ru1) ≤
          linuxGetUserProcessorTime (some ru2) ∧
        linuxGetTotalProcessorTime (some ru1) ≤
          linuxGetTotalProcessorTime (some ru2)) ∧
    (∀ t1 t2 : ProcessTimes,
      t1.kernelTime.dwLowDateTime ≤ t2.kernelTime.dwLowDateTime →
      t1.kernelTime.dwHighDateTime ≤ t2.kernelTime.dwHighDateTime →
      t1.userTime.dwLowDateTime ≤ t2.userTime.dwLowDateTime →
      t1.userTime.dwHighDateTime ≤ t2.userTime.dwHighDateTime →
      t1.kernelTime.dwLowDateTime < 2 ^ 32 →
      t2.kernelTime.dwLowDateTime < 2 ^ 32 →
      t1.userTime.dwLowDateTime < 2 ^ 32 →
      t2.userTime.dwLowDateTime < 2 ^ 32 →
      filetimeToU64 t2.kernelTime + filetimeToU64 t2.userTime < 2 ^ 64 →
      winGetKernelProcessorTime (some t1) ≤
          winGetKernelProcessorTime (some t2) ∧
        winGetUserProcessorTime (some t1) ≤
          winGetUserProcessorTime (some t2) ∧
        winGetTotalProcessorTime (some t1) ≤
          winGetTotalProcessorTime (some t2)) ∧
    (∀ r1 r2 : RusageInfoV2, ∀ tb : TimebaseInfo,
      r1.ri_system_time ≤ r2.ri_system_time →
      r1.ri_user_time ≤ r2.ri_user_time →
      r2.ri_system_time * tb.numer < 2 ^ 64 →
      r2.ri_user_time * tb.numer < 2 ^ 64 →
      macGetKernelProcessorTime (some r2) tb +
        macGetUserProcessorTime (some r2) tb < 2 ^ 64 →
      macGetKernelProcessorTime (some r1) tb ≤
          macGetKernelProcessorTime (some r2) tb ∧
        macGetUserProcessorTime (some r1) tb ≤
          macGetUserProcessorTime (some r2) tb ∧
        macGetTotalProcessorTime (some r1) tb ≤
          macGetTotalProcessorTime (some r2) tb) := by
  refine ⟨?_, ?_, ?_⟩
  · intro ru1 ru2 h1 h2 h3 h4 h5
    simp only [linuxGetKernelProcessorTime, linuxGetUserProcessorTime,
      linuxGetTotalProcessorTime, mkRUsageResult, timevalToMs,
      Option.getD_some]
    omega
  · intro t1 t2 h1 h2 h3 h4 h5 h6 h7 h8 h9
    simp only [winGetKernelProcessorTime, winGetUserProcessorTime,
      winGetTotalProcessorTime, Option.getD_some]
    rw [filetimeToU64_eq _ h5, filetimeToU64_eq _ h6,
      filetimeToU64_eq _ h7, filetimeToU64_eq _ h8]
    rw [filetimeToU64_eq _ h6, filetimeToU64_eq _ h8] at h9
    have hx : t1.kernelTime.dwLowDateTime +
        t1.kernelTime.dwHighDateTime * 2 ^ 32 +
        (t1.userTime.dwLowDateTime + t1.userTime.dwHighDateTime * 2 ^ 32) ≤
        t2.kernelTime.dwLowDateTime +
        t2.kernelTime.dwHighDateTime * 2 ^ 32 +
        (t2.userTime.dwLowDateTime + t2.userTime.dwHighDateTime * 2 ^ 32) := by
      omega
    rw [Nat.mod_eq_of_lt (Nat.lt_of_le_of_lt hx h9), Nat.mod_eq_of_lt h9]
    exact ⟨Nat.div_le_div_right (by omega), Nat.div_le_div_right (by omega),
      Nat.div_le_div_right hx⟩
  · intro r1 r2 tb h1 h2 h3 h4 h5
    have hk : macGetKernelProcessorTime (some r1) tb ≤
        macGetKernelProcessorTime (some r2) tb := by
      simp only [macGetKernelProcessorTime, macTickToMs, Option.getD_some]
      rw [Nat.mod_eq_of_lt (Nat.lt_of_le_of_lt (Nat.mul_le_mul_right _ h1) h3),
        Nat.mod_eq_of_lt h3]
      exact Nat.div_le_div_right (Nat.div_le_div_right (Nat.mul_le_mul_right _ h1))
    have hu : macGetUserProcessorTime (some r1) tb ≤
        macGetUserProcessorTime (some r2) tb := by
      simp only [macGetUserProcessorTime, macTickToMs, Option.getD_some]
      rw [Nat.mod_eq_of_lt (Nat.lt_of_le_of_lt (Nat.mul_le_mul_right _ h2) h4),
        Nat.mod_eq_of_lt h4]
      exact Nat.div_le_div_right (Nat.div_le_div_right (Nat.mul_le_mul_right _ h2))
    refine ⟨hk, hu, ?_⟩
    simp only [macGetTotalProcessorTime]
    omega

/-- Witness for C9: one componentwise-ordered snapshot pair per
strategy, all bounds checked by evaluation. -/
theorem c9_witness :
    (linuxGetKernelProcessorTime (some ⟨⟨1, 500⟩, ⟨2, 100⟩⟩) ≤
        linuxGetKernelProcessorTime (some ⟨⟨1, 900⟩, ⟨3, 2500⟩⟩) ∧
      linuxGetUserProcessorTime (some ⟨⟨1, 500⟩, ⟨2, 100⟩⟩) ≤
        linuxGetUserProcessorTime (some ⟨⟨1, 900⟩, ⟨3, 2500⟩⟩) ∧
      linuxGetTotalProcessorTime (some ⟨⟨1, 500⟩, ⟨2, 100⟩⟩) ≤
        linuxGetTotalProcessorTime (some ⟨⟨1, 900⟩, ⟨3, 2500⟩⟩)) ∧
    (winGetKernelProcessorTime
        (some ⟨⟨0, 0⟩, ⟨0, 0⟩, ⟨9999, 0⟩, ⟨1, 0⟩⟩) ≤
        winGetKernelProcessorTime
          (some ⟨⟨0, 0⟩, ⟨0, 0⟩, ⟨20000, 1⟩, ⟨10000, 2⟩⟩) ∧
      winGetUserProcessorTime
          (some ⟨⟨0, 0⟩, ⟨0, 0⟩, ⟨9999, 0⟩, ⟨1, 0⟩⟩) ≤
        winGetUserProcessorTime
          (some ⟨⟨0, 0⟩, ⟨0, 0⟩, ⟨20000, 1⟩, ⟨10000, 2⟩⟩) ∧
      winGetTotalProcessorTime
          (some ⟨⟨0, 0⟩, ⟨0, 0⟩, ⟨9999, 0⟩, ⟨1, 0⟩⟩) ≤
        winGetTotalProcessorTime
          (some ⟨⟨0, 0⟩, ⟨0, 0⟩, ⟨20000, 1⟩, ⟨10000, 2⟩⟩)) ∧
    (macGetKernelProcessorTime (some ⟨1000000, 2000000⟩) ⟨3, 2⟩ ≤
        macGetKernelProcessorTime (some ⟨2000000, 5000000⟩) ⟨3, 2⟩ ∧
      macGetUserProcessorTime (some ⟨1000000, 2000000⟩) ⟨3, 2⟩ ≤
        macGetUserProcessorTime (some ⟨2000000, 5000000⟩) ⟨3, 2⟩ ∧
      macGetTotalProcessorTime (some ⟨1000000, 2000000⟩) ⟨3, 2⟩ ≤
        macGetTotalProcessorTime (some ⟨2000000, 5000000⟩) ⟨3, 2⟩) := by
  exact ⟨c9_monotone_in_snapshot.1 ⟨⟨1, 500⟩, ⟨2, 100⟩⟩ ⟨⟨1, 900⟩, ⟨3, 2500⟩⟩
      (by decide) (by decide) (by decide) (by decide) (by decide),
    c9_monotone_in_snapshot.2.1 ⟨⟨0, 0⟩, ⟨0, 0⟩, ⟨9999, 0⟩, ⟨1, 0⟩⟩
      ⟨⟨0, 0⟩, ⟨0, 0⟩, ⟨20000, 1⟩, ⟨10000, 2⟩⟩
      (by decide) (by decide) (by decide) (by decide) (by decide)
      (by decide) (by decide) (by decide) (by decide),
    c9_monotone_in_snapshot.2.2 ⟨1000000, 2000000⟩ ⟨2000000, 5000000⟩ ⟨3, 2⟩
      (by decide) (by decide) (by decide) (by decide) (by decide)⟩
